import Mathlib

/-!
Verification of the `shutdown` package (src/signaller.go).

The Go `Signaller` holds three `chan struct{}` fields, each paired with a
`sync.Once`. The only mutation ever performed on a channel is
`once.Do(func() { close(ch) })`, so the channel's observable state is a
single monotone bit: open (fresh) or closed (signalled). The `Once`'s done
bit and the channel's closed bit are only ever flipped together inside that
one `Do` call; the pair is therefore embedded as one `Bool` per flag, with
the trigger an idempotent set-to-true (the `Once` gate makes the Go close
exactly-once, which on the state level is exactly the idempotent set).
-/

namespace Shutdown

/-- Shallow embedding of the Go `Signaller` struct: for each of the three
channels, `true` means the channel has been closed (signal fired). -/
structure Signaller where
  softStopChan : Bool
  hardStopChan : Bool
  hasStoppedChan : Bool
deriving DecidableEq, Repr

/-- Embedding of `NewSignaller`: three freshly made (open) channels. -/
def NewSignaller : Signaller :=
  { softStopChan := false, hardStopChan := false, hasStoppedChan := false }

/-- Embedding of `(*Signaller).TriggerSoftStop`:
`s.softStopOnce.Do(func() { close(s.softStopChan) })`. -/
def Signaller.TriggerSoftStop (s : Signaller) : Signaller :=
  { s with softStopChan := true }

/-- Embedding of `(*Signaller).TriggerHardStop`: first `s.TriggerSoftStop()`,
then `s.hardStopOnce.Do(func() { close(s.hardStopChan) })`. -/
def Signaller.TriggerHardStop (s : Signaller) : Signaller :=
  { s.TriggerSoftStop with hardStopChan := true }

/-- Embedding of `(*Signaller).TriggerHasStopped`:
`s.hasStoppedOnce.Do(func() { close(s.hasStoppedChan) })`. -/
def Signaller.TriggerHasStopped (s : Signaller) : Signaller :=
  { s with hasStoppedChan := true }

/-- Embedding of `(*Signaller).SoftStopChan`: the returned read-only handle
is the field itself, so its observable closed-state is the field's bit. -/
def Signaller.SoftStopChan (s : Signaller) : Bool := s.softStopChan

/-- Embedding of `(*Signaller).HardStopChan`. -/
def Signaller.HardStopChan (s : Signaller) : Bool := s.hardStopChan

/-- Embedding of `(*Signaller).HasStoppedChan`. -/
def Signaller.HasStoppedChan (s : Signaller) : Bool := s.hasStoppedChan

/-- Embedding of `(*Signaller).IsSoftStopSignalled`: the non-blocking
`select` on `s.SoftStopChan()` returns `true` exactly when that channel is
closed. -/
def Signaller.IsSoftStopSignalled (s : Signaller) : Bool := s.SoftStopChan

/-- Embedding of `(*Signaller).IsHardStopSignalled`: non-blocking `select`
on `s.HardStopChan()`. -/
def Signaller.IsHardStopSignalled (s : Signaller) : Bool := s.HardStopChan

/-- Embedding of `(*Signaller).IsHasStoppedSignalled`: non-blocking `select`
on `s.HasStoppedChan()`. -/
def Signaller.IsHasStoppedSignalled (s : Signaller) : Bool := s.HasStoppedChan

/-- Observable state of the `(ctx, cancel)` pair produced by
`context.WithCancel(parent)` inside the three `...Ctx` constructors:
`parentDone` records whether the supplied parent context is cancelled, and
`released` records whether the returned `context.CancelFunc` has been
invoked by the caller. -/
structure CancelScope where
  parentDone : Bool
  released : Bool
deriving DecidableEq, Repr

/-- Embedding of invoking the `context.CancelFunc` returned by
`context.WithCancel`: it cancels the derived context and is a no-op when
the context is already cancelled; it never touches the parent. -/
def CancelScope.cancel (c : CancelScope) : CancelScope :=
  { c with released := true }

/-- Embedding of the observable Done-state of the context returned by
`(*Signaller).SoftStopCtx`: the spawned goroutine selects on `ctx.Done()`
(fired by parent cancellation or by the returned cancel function) and on
`s.softStopChan`, then calls `cancel()`; hence the derived context is
cancelled exactly when the parent is done, the cancel function was called,
or the soft-stop channel is closed. -/
def Signaller.SoftStopCtxDone (s : Signaller) (c : CancelScope) : Bool :=
  c.parentDone || c.released || s.softStopChan

/-- Embedding of the observable Done-state of the context returned by
`(*Signaller).HardStopCtx`: its goroutine selects on `ctx.Done()` and on
`s.hardStopChan`. -/
def Signaller.HardStopCtxDone (s : Signaller) (c : CancelScope) : Bool :=
  c.parentDone || c.released || s.hardStopChan

/-- Embedding of the observable Done-state of the context returned by
`(*Signaller).HasStoppedCtx`: its goroutine selects on `ctx.Done()` and on
`s.hasStoppedChan`. -/
def Signaller.HasStoppedCtxDone (s : Signaller) (c : CancelScope) : Bool :=
  c.parentDone || c.released || s.hasStoppedChan

/-- The three one-shot flags of a `Signaller`. -/
inductive Flag
  | soft
  | hard
  | stopped
deriving DecidableEq, Repr

/-- Closed-state of the channel belonging to a flag. -/
def Signaller.flagClosed (s : Signaller) : Flag → Bool
  | .soft => s.softStopChan
  | .hard => s.hardStopChan
  | .stopped => s.hasStoppedChan

/-- The public operations on a `Signaller` (methods of the Go type).
Queries, channel accessors and context constructors read the state but do
not mutate it; only the three triggers do. -/
inductive Op
  | triggerSoftStop
  | triggerHardStop
  | triggerHasStopped
  | isSoftStopSignalled
  | isHardStopSignalled
  | isHasStoppedSignalled
  | softStopChanAcc
  | hardStopChanAcc
  | hasStoppedChanAcc
  | softStopCtx
  | hardStopCtx
  | hasStoppedCtx
deriving DecidableEq, Repr

/-- Effect of one public operation on the `Signaller` state. The triggers
mutate it as in the source; every other method only reads shared state
(a non-blocking `select`, returning a channel, or spawning a watcher
goroutine that never writes to the `Signaller`). -/
def Op.apply : Op → Signaller → Signaller
  | .triggerSoftStop, s => s.TriggerSoftStop
  | .triggerHardStop, s => s.TriggerHardStop
  | .triggerHasStopped, s => s.TriggerHasStopped
  | .isSoftStopSignalled, s => s
  | .isHardStopSignalled, s => s
  | .isHasStoppedSignalled, s => s
  | .softStopChanAcc, s => s
  | .hardStopChanAcc, s => s
  | .hasStoppedChanAcc, s => s
  | .softStopCtx, s => s
  | .hardStopCtx, s => s
  | .hasStoppedCtx, s => s

/-- State after running a sequence of public operations. -/
def applyOps (ops : List Op) (s : Signaller) : Signaller :=
  ops.foldl (fun t op => op.apply t) s

/-- All intermediate states of a run, the initial state included. -/
def statesOf (s : Signaller) : List Op → List Signaller
  | [] => [s]
  | op :: ops => s :: statesOf (op.apply s) ops

/-- Trace of one flag's channel-closed bit along a run. -/
def flagTrace (f : Flag) (s : Signaller) (ops : List Op) : List Bool :=
  (statesOf s ops).map (fun t => t.flagClosed f)

/-- Number of unset-to-set transitions in a boolean trace. -/
def riseCount : List Bool → Nat
  | [] => 0
  | [_] => 0
  | a :: b :: rest => (if a = false ∧ b = true then 1 else 0) + riseCount (b :: rest)

/-- The escalation invariant of the data model: a closed hard-stop channel
implies a closed soft-stop channel. -/
def EscalationInv (s : Signaller) : Prop :=
  s.hardStopChan = true → s.softStopChan = true

instance (s : Signaller) : Decidable (EscalationInv s) := by
  unfold EscalationInv; infer_instance

/-! Helper lemmas (shared, not tied to a single claim). -/

lemma Op.apply_flag_mono (op : Op) (s : Signaller) (f : Flag)
    (h : s.flagClosed f = true) : (op.apply s).flagClosed f = true := by
  cases op <;> cases f <;>
    simp_all [Op.apply, Signaller.flagClosed, Signaller.TriggerSoftStop,
      Signaller.TriggerHardStop, Signaller.TriggerHasStopped]

lemma applyOps_flag_mono (ops : List Op) (s : Signaller) (f : Flag)
    (h : s.flagClosed f = true) : (applyOps ops s).flagClosed f = true := by
  induction ops generalizing s with
  | nil => exact h
  | cons op ops ih => exact ih (op.apply s) (op.apply_flag_mono s f h)

lemma applyOps_cons (op : Op) (ops : List Op) (s : Signaller) :
    applyOps (op :: ops) s = applyOps ops (op.apply s) := rfl

lemma flagTrace_cons (f : Flag) (op : Op) (ops : List Op) (s : Signaller) :
    flagTrace f s (op :: ops) = s.flagClosed f :: flagTrace f (op.apply s) ops := rfl

lemma flagTrace_head (f : Flag) (s : Signaller) (ops : List Op) :
    ∃ t, flagTrace f s ops = s.flagClosed f :: t := by
  cases ops <;> exact ⟨_, rfl⟩

lemma riseCount_flagTrace (f : Flag) (ops : List Op) (s : Signaller) :
    riseCount (flagTrace f s ops)
      = if s.flagClosed f = false ∧ (applyOps ops s).flagClosed f = true then 1 else 0 := by
  induction ops generalizing s with
  | nil =>
    cases h : s.flagClosed f <;>
      simp [flagTrace, statesOf, riseCount, applyOps, h]
  | cons op ops ih =>
    obtain ⟨t, ht⟩ := flagTrace_head f (op.apply s) ops
    rw [flagTrace_cons, ht, riseCount, ← ht, ih (op.apply s), applyOps_cons]
    cases h1 : s.flagClosed f with
    | true =>
      have h2 := op.apply_flag_mono s f h1
      have h3 := applyOps_flag_mono ops (op.apply s) f h2
      simp [h2, h3]
    | false =>
      cases h2 : (op.apply s).flagClosed f with
      | true =>
        have h3 := applyOps_flag_mono ops (op.apply s) f h2
        simp [h2, h3]
      | false => simp [h2]

lemma Op.apply_escalation (op : Op) (s : Signaller)
    (h : EscalationInv s) : EscalationInv (op.apply s) := by
  cases op <;>
    simp_all [Op.apply, EscalationInv, Signaller.TriggerSoftStop,
      Signaller.TriggerHardStop, Signaller.TriggerHasStopped]

/-! Claim theorems. -/

/-- C1. Escalation: after calling `TriggerHardStop` on any `Signaller`,
in whatever prior state, both `IsSoftStopSignalled` and
`IsHardStopSignalled` return `true` and both the soft-stop and hard-stop
wait handles are closed, because `TriggerHardStop` first performs
`TriggerSoftStop` and then closes `hardStopChan`. -/
theorem triggerHardStop_escalates (s : Signaller) :
    (s.TriggerHardStop).IsSoftStopSignalled = true
      ∧ (s.TriggerHardStop).IsHardStopSignalled = true
      ∧ (s.TriggerHardStop).SoftStopChan = true
      ∧ (s.TriggerHardStop).HardStopChan = true
      ∧ s.TriggerHardStop = (s.TriggerSoftStop).TriggerHardStop := by
  refine ⟨rfl, rfl, rfl, rfl, ?_⟩
  cases s
  rfl

/-- C6. Query/handle consistency: for every `Signaller` state and each of
the three flags, the boolean query returns `true` exactly when the
corresponding wait handle is in its signalled (closed) observable state. -/
theorem query_iff_handle_signalled (s : Signaller) :
    (s.IsSoftStopSignalled = true ↔ s.SoftStopChan = true)
      ∧ (s.IsHardStopSignalled = true ↔ s.HardStopChan = true)
      ∧ (s.IsHasStoppedSignalled = true ↔ s.HasStoppedChan = true) :=
  ⟨Iff.rfl, Iff.rfl, Iff.rfl⟩

/-- C8. Independence / frame: `TriggerHasStopped` changes only the
has-stopped flag, leaving the soft-stop and hard-stop channels exactly as
they were; conversely `TriggerSoftStop` and `TriggerHardStop` leave the
has-stopped channel unchanged. -/
theorem trigger_frame (s : Signaller) :
    (s.TriggerHasStopped).softStopChan = s.softStopChan
      ∧ (s.TriggerHasStopped).hardStopChan = s.hardStopChan
      ∧ (s.TriggerHasStopped).hasStoppedChan = true
      ∧ (s.TriggerSoftStop).hasStoppedChan = s.hasStoppedChan
      ∧ (s.TriggerHardStop).hasStoppedChan = s.hasStoppedChan :=
  ⟨rfl, rfl, rfl, rfl, rfl⟩

/-- C10. Trigger commutativity: any two of the three trigger operations
applied in sequence to the same `Signaller` produce the same flag state in
either order; the result depends only on the set of triggers called. -/
theorem trigger_comm (s : Signaller) :
    (s.TriggerSoftStop).TriggerHardStop = (s.TriggerHardStop).TriggerSoftStop
      ∧ (s.TriggerSoftStop).TriggerHasStopped
          = (s.TriggerHasStopped).TriggerSoftStop
      ∧ (s.TriggerHardStop).TriggerHasStopped
          = (s.TriggerHasStopped).TriggerHardStop := by
  cases s
  exact ⟨rfl, rfl, rfl⟩

lemma applyOps_escalation (ops : List Op) (s : Signaller)
    (h : EscalationInv s) : EscalationInv (applyOps ops s) := by
  induction ops generalizing s with
  | nil => exact h
  | cons op ops ih => exact ih (op.apply s) (op.apply_escalation s h)

/-- C2. Idempotence: every trigger, called a second time, leaves the state
produced by the first call unchanged; on any state in which the trigger's
own flag is already set (for `TriggerHardStop`, any such state satisfying
the escalation invariant, which all reachable states do), the trigger is a
no-op; and along any run of public operations from a fresh `Signaller`,
each flag undergoes exactly one unset-to-set transition when its trigger
occurs and none otherwise. -/
theorem trigger_idempotent :
    (∀ s : Signaller, (s.TriggerSoftStop).TriggerSoftStop = s.TriggerSoftStop)
      ∧ (∀ s : Signaller, (s.TriggerHardStop).TriggerHardStop = s.TriggerHardStop)
      ∧ (∀ s : Signaller,
          (s.TriggerHasStopped).TriggerHasStopped = s.TriggerHasStopped)
      ∧ (∀ s : Signaller, s.softStopChan = true → s.TriggerSoftStop = s)
      ∧ (∀ s : Signaller, EscalationInv s → s.hardStopChan = true →
          s.TriggerHardStop = s)
      ∧ (∀ s : Signaller, s.hasStoppedChan = true → s.TriggerHasStopped = s)
      ∧ (∀ (f : Flag) (ops : List Op),
          riseCount (flagTrace f NewSignaller ops)
            = if (applyOps ops NewSignaller).flagClosed f = true then 1 else 0) := by
  refine ⟨fun s => by cases s; rfl, fun s => by cases s; rfl, fun s => by cases s; rfl,
    fun s h => by cases s; simp_all [Signaller.TriggerSoftStop],
    fun s hinv hh => ?_,
    fun s h => by cases s; simp_all [Signaller.TriggerHasStopped],
    fun f ops => ?_⟩
  · have hs := hinv hh
    cases s
    simp_all [Signaller.TriggerHardStop, Signaller.TriggerSoftStop]
  · rw [riseCount_flagTrace]
    cases f <;> simp [NewSignaller, Signaller.flagClosed]

/-- Witness for C2 at concrete states: the soft flag set in
`⟨true, false, false⟩`, the hard flag (with the escalation invariant) in
`⟨true, true, false⟩`, the has-stopped flag in `⟨false, false, true⟩`, and
a two-trigger run from fresh showing a single rise. -/
theorem trigger_idempotent_witness :
    (Signaller.mk true false false).softStopChan = true
      ∧ (Signaller.mk true false false).TriggerSoftStop
          = Signaller.mk true false false
      ∧ EscalationInv (Signaller.mk true true false)
      ∧ (Signaller.mk true true false).hardStopChan = true
      ∧ (Signaller.mk true true false).TriggerHardStop
          = Signaller.mk true true false
      ∧ (Signaller.mk false false true).hasStoppedChan = true
      ∧ (Signaller.mk false false true).TriggerHasStopped
          = Signaller.mk false false true
      ∧ riseCount
          (flagTrace Flag.soft NewSignaller [Op.triggerSoftStop, Op.triggerSoftStop])
          = 1 :=
  ⟨rfl, trigger_idempotent.2.2.2.1 _ rfl,
   by decide, rfl, trigger_idempotent.2.2.2.2.1 _ (by decide) rfl,
   rfl, trigger_idempotent.2.2.2.2.2.1 _ rfl,
   by rw [trigger_idempotent.2.2.2.2.2.2 Flag.soft
      [Op.triggerSoftStop, Op.triggerSoftStop]]; rfl⟩

/-- C3. Escalation invariant: a closed hard-stop channel implies a closed
soft-stop channel on a fresh `Signaller`; the property is preserved by
every public operation (triggers, queries, channel accessors, context
constructors), hence holds in every reachable state. -/
theorem escalation_invariant :
    EscalationInv NewSignaller
      ∧ (∀ (op : Op) (s : Signaller), EscalationInv s → EscalationInv (op.apply s))
      ∧ (∀ ops : List Op, EscalationInv (applyOps ops NewSignaller)) :=
  ⟨by decide, fun op s h => op.apply_escalation s h,
   fun ops => applyOps_escalation ops NewSignaller (by decide)⟩

/-- Witness for C3: preservation applied at the state `⟨true, true, false⟩`
and the operation `triggerHasStopped`. -/
theorem escalation_invariant_witness :
    EscalationInv (Signaller.mk true true false)
      ∧ EscalationInv (Op.apply Op.triggerHasStopped (Signaller.mk true true false)) :=
  ⟨by decide, escalation_invariant.2.1 Op.triggerHasStopped _ (by decide)⟩

/-- C7. Monotonicity: the three queries and the three channel accessors
coincide with the per-flag closed bit, and once a flag's channel is closed
no later sequence of public operations ever reopens it: a query never
returns to `false`, a handle is never un-signalled. -/
theorem flags_monotone :
    (∀ s : Signaller,
        s.IsSoftStopSignalled = s.flagClosed Flag.soft
          ∧ s.IsHardStopSignalled = s.flagClosed Flag.hard
          ∧ s.IsHasStoppedSignalled = s.flagClosed Flag.stopped
          ∧ s.SoftStopChan = s.flagClosed Flag.soft
          ∧ s.HardStopChan = s.flagClosed Flag.hard
          ∧ s.HasStoppedChan = s.flagClosed Flag.stopped)
      ∧ (∀ (ops : List Op) (s : Signaller) (f : Flag),
          s.flagClosed f = true → (applyOps ops s).flagClosed f = true) :=
  ⟨fun _ => ⟨rfl, rfl, rfl, rfl, rfl, rfl⟩,
   fun ops s f h => applyOps_flag_mono ops s f h⟩

/-- Witness for C7: the soft flag, set in `⟨true, false, false⟩`, stays set
across a later trigger and a context construction. -/
theorem flags_monotone_witness :
    (Signaller.mk true false false).flagClosed Flag.soft = true
      ∧ (applyOps [Op.triggerHasStopped, Op.hardStopCtx]
          (Signaller.mk true false false)).flagClosed Flag.soft = true :=
  ⟨rfl, flags_monotone.2 [Op.triggerHasStopped, Op.hardStopCtx] _ Flag.soft rfl⟩

/-- C4. A context derived via `HardStopCtx` from a live, unreleased parent
is not cancelled by `TriggerSoftStop` alone (its watcher selects only on
`hardStopChan`), and a subsequent `TriggerHardStop` does cancel it. -/
theorem hardStopCtx_soft_then_hard (s : Signaller) (c : CancelScope)
    (hp : c.parentDone = false) (hr : c.released = false)
    (hh : s.hardStopChan = false) :
    (s.TriggerSoftStop).HardStopCtxDone c = false
      ∧ ((s.TriggerSoftStop).TriggerHardStop).HardStopCtxDone c = true := by
  cases c
  cases s
  simp_all [Signaller.HardStopCtxDone, Signaller.TriggerSoftStop,
    Signaller.TriggerHardStop]

/-- Witness for C4 at a fresh `Signaller` and a live, unreleased scope. -/
theorem hardStopCtx_soft_then_hard_witness :
    (CancelScope.mk false false).parentDone = false
      ∧ (CancelScope.mk false false).released = false
      ∧ NewSignaller.hardStopChan = false
      ∧ (NewSignaller.TriggerSoftStop).HardStopCtxDone (CancelScope.mk false false)
          = false
      ∧ ((NewSignaller.TriggerSoftStop).TriggerHardStop).HardStopCtxDone
          (CancelScope.mk false false) = true :=
  ⟨rfl, rfl, rfl,
   (hardStopCtx_soft_then_hard NewSignaller (CancelScope.mk false false)
      rfl rfl rfl).1,
   (hardStopCtx_soft_then_hard NewSignaller (CancelScope.mk false false)
      rfl rfl rfl).2⟩

/-- C5. A context derived via `SoftStopCtx` from a live, unreleased parent
is cancelled by `TriggerHardStop` — the hard trigger closes `softStopChan`
first, which is the channel its watcher selects on — and is not cancelled
by `TriggerHasStopped`. -/
theorem softStopCtx_hard_escalates (s : Signaller) (c : CancelScope)
    (hp : c.parentDone = false) (hr : c.released = false)
    (hs : s.softStopChan = false) :
    (s.TriggerHardStop).SoftStopCtxDone c = true
      ∧ (s.TriggerHasStopped).SoftStopCtxDone c = false := by
  cases c
  cases s
  simp_all [Signaller.SoftStopCtxDone, Signaller.TriggerHardStop,
    Signaller.TriggerSoftStop, Signaller.TriggerHasStopped]

/-- Witness for C5 at a fresh `Signaller` and a live, unreleased scope. -/
theorem softStopCtx_hard_escalates_witness :
    (CancelScope.mk false false).parentDone = false
      ∧ (CancelScope.mk false false).released = false
      ∧ NewSignaller.softStopChan = false
      ∧ (NewSignaller.TriggerHardStop).SoftStopCtxDone (CancelScope.mk false false)
          = true
      ∧ (NewSignaller.TriggerHasStopped).SoftStopCtxDone (CancelScope.mk false false)
          = false :=
  ⟨rfl, rfl, rfl,
   (softStopCtx_hard_escalates NewSignaller (CancelScope.mk false false)
      rfl rfl rfl).1,
   (softStopCtx_hard_escalates NewSignaller (CancelScope.mk false false)
      rfl rfl rfl).2⟩

/-- C9. Release idempotence: invoking the release function any further
number of times after a first invocation changes nothing; releasing never
touches the parent's done bit; and a derived scope already cancelled by
any path stays cancelled after a release — releasing is total, so there is
no error or panic state. -/
theorem cancel_release_idempotent (s : Signaller) (c : CancelScope) (n : Nat) :
    CancelScope.cancel^[n] c.cancel = c.cancel
      ∧ (c.cancel).parentDone = c.parentDone
      ∧ (s.SoftStopCtxDone c = true → s.SoftStopCtxDone c.cancel = true)
      ∧ (s.HardStopCtxDone c = true → s.HardStopCtxDone c.cancel = true)
      ∧ (s.HasStoppedCtxDone c = true → s.HasStoppedCtxDone c.cancel = true) := by
  refine ⟨Function.iterate_fixed (by cases c; rfl) n, rfl, ?_, ?_, ?_⟩ <;>
    intro h <;>
    simp [Signaller.SoftStopCtxDone, Signaller.HardStopCtxDone,
      Signaller.HasStoppedCtxDone, CancelScope.cancel]

/-- Witness for C9: three further releases of an already-released scope
whose signaller has soft-stop fired, hence a scope already cancelled. -/
theorem cancel_release_idempotent_witness :
    (Signaller.mk true false false).SoftStopCtxDone (CancelScope.mk false false)
        = true
      ∧ CancelScope.cancel^[3] (CancelScope.mk false false).cancel
          = (CancelScope.mk false false).cancel
      ∧ (Signaller.mk true false false).SoftStopCtxDone
          (CancelScope.mk false false).cancel = true :=
  ⟨rfl,
   (cancel_release_idempotent (Signaller.mk true false false)
      (CancelScope.mk false false) 3).1,
   (cancel_release_idempotent (Signaller.mk true false false)
      (CancelScope.mk false false) 3).2.2.1 rfl⟩

end Shutdown
